import Mathlib

/-!
Shallow embedding of the order-fulfillment core of `src/server.js` (an
Express + MySQL retail backend): the checkout transaction of
`POST /api/orders`, the cart insertion of `POST /api/cart`, the invoice
rendering of `GET /api/orders/:id/invoice` (`createSimplePdf`,
`buildInvoicePdf`), and the restock notification path of
`PUT /api/products/:id` (`sendBackInStockAlerts`).

The database is modelled as lists of rows mirroring the MySQL tables
(`products`, `cart`, `orders`, `order_items`, `wishlist`, `users`).  Money
is modelled with exact rationals; SQL equality filters become boolean
predicates over the row lists; each route handler becomes a pure function
from a request and a database state to a response and a database state
(a rolled-back transaction returns the state unchanged).
-/

namespace Ecom

/-- A row of the `products` table: `id`, `title`, `description`, `price`
(`DECIMAL`), `Rating`, and the `stock` counter (MySQL signed `INT`, so it is
modelled as `Int`: nothing in the schema forbids negative values). -/
structure Product where
  id : Nat
  title : String
  descr : String
  price : ℚ
  rating : Int
  stock : Int
deriving Repr, DecidableEq

/-- A row of the `cart` table: `(user_id, product_id, quantity)`, unique per
`(user_id, product_id)` by the table's key. -/
structure CartLine where
  user_id : Nat
  product_id : Nat
  quantity : Int
deriving Repr, DecidableEq

/-- A row of the `users` table. -/
structure UserRow where
  id : Nat
  name : String
  email : String
deriving Repr, DecidableEq

/-- A row of the `wishlist` table: `(user_id, product_id)`. -/
structure WishRow where
  user_id : Nat
  product_id : Nat
deriving Repr, DecidableEq

/-- A row of the `orders` table. -/
structure OrderRow where
  id : Nat
  user_id : Nat
  subtotal : ℚ
  tax : ℚ
  total : ℚ
  status : String
  created_at : String
deriving Repr, DecidableEq

/-- A row of the `order_items` table: the price is the snapshot copied from
the cart read at checkout, not a live reference to `products.price`. -/
structure OrderItem where
  order_id : Nat
  product_id : Nat
  quantity : Int
  price : ℚ
deriving Repr, DecidableEq

/-- The whole database state, plus the `AUTO_INCREMENT` counter for
`orders.id`, the current timestamp (opaque string) used for `created_at`
columns, and whether the SMTP environment variables are configured. -/
structure DB where
  products : List Product
  cart : List CartLine
  orders : List OrderRow
  orderItems : List OrderItem
  wishlist : List WishRow
  users : List UserRow
  nextOrderId : Nat
  now : String
  smtpConfigured : Bool
deriving Repr, DecidableEq

/-! ## Checkout transaction engine (`POST /api/orders`) -/

/-- One row of the checkout's cart read:
`SELECT cart.product_id, cart.quantity, products.price, products.stock,
products.title FROM cart JOIN products ... WHERE cart.user_id = ?`. -/
structure CartItem where
  product_id : Nat
  quantity : Int
  price : ℚ
  stock : Int
  title : String
deriving Repr, DecidableEq

/-- The checkout's cart read: the user's cart lines inner-joined with the
current product snapshot (price, stock, title). -/
def cartItemsFor (uid : Nat) (db : DB) : List CartItem :=
  (db.cart.filter (fun l => l.user_id == uid)).filterMap fun l =>
    (db.products.find? (fun p => p.id == l.product_id)).map fun p =>
      { product_id := l.product_id, quantity := l.quantity,
        price := p.price, stock := p.stock, title := p.title }

/-- The errors the checkout surfaces with HTTP 400: `"Cart is empty"` and
`"<title> has insufficient stock"`. -/
inductive OrderError where
  | emptyCart
  | insufficientStock (title : String)
deriving Repr, DecidableEq

/-- The flat tax rate: `const tax = subtotal * 0.1`. -/
def taxRate : ℚ := 1 / 10

/-- `cartItems.reduce((sum, item) => sum + item.price * item.quantity, 0)`. -/
def subtotalOf (items : List CartItem) : ℚ :=
  items.foldl (fun s it => s + it.price * (it.quantity : ℚ)) 0

/-- One `UPDATE products SET stock = stock - ? WHERE id = ?` statement.
Note this update is unconditional: it has no `stock >= ?` guard. -/
def decStockOne (pid : Nat) (q : Int) (ps : List Product) : List Product :=
  ps.map fun p => if p.id == pid then { p with stock := p.stock - q } else p

/-- The checkout's decrement loop: one `UPDATE` per cart item. -/
def applyDecrements (items : List CartItem) (ps : List Product) : List Product :=
  items.foldl (fun acc it => decStockOne it.product_id it.quantity acc) ps

/-- The checkout's `order_items` insertion loop: one row per cart item,
carrying the snapshotted price. -/
def mkOrderItems (oid : Nat) (items : List CartItem) : List OrderItem :=
  items.map fun it =>
    { order_id := oid, product_id := it.product_id,
      quantity := it.quantity, price := it.price }

/-- The checkout transaction of `POST /api/orders`: read the cart joined
with products; fail on an empty cart; fail on the first line with
`stock < quantity`; otherwise compute totals, insert the order and its
items, decrement stock, and clear the user's cart.  A failing branch
rolls the transaction back, so it returns the database unchanged. -/
def placeOrder (uid : Nat) (db : DB) : Except OrderError OrderRow × DB :=
  let items := cartItemsFor uid db
  if items.isEmpty then (Except.error OrderError.emptyCart, db)
  else
    match items.find? (fun it => decide (it.stock < it.quantity)) with
    | some bad => (Except.error (OrderError.insufficientStock bad.title), db)
    | none =>
      let subtotal := subtotalOf items
      let tax := subtotal * taxRate
      let total := subtotal + tax
      let order : OrderRow :=
        { id := db.nextOrderId, user_id := uid, subtotal := subtotal,
          tax := tax, total := total, status := "completed",
          created_at := db.now }
      let db2 : DB :=
        { db with
          orders := db.orders ++ [order]
          orderItems := db.orderItems ++ mkOrderItems db.nextOrderId items
          products := applyDecrements items db.products
          cart := db.cart.filter (fun l => l.user_id != uid)
          nextOrderId := db.nextOrderId + 1 }
      (Except.ok order, db2)

/-- A sequence of checkout calls (one user id per call), each acting on the
state left by the previous one. -/
def checkoutSeq (uids : List Nat) (db : DB) : DB :=
  uids.foldl (fun d u => (placeOrder u d).2) db

/-- Database well-formedness guaranteed by the MySQL schema: product ids
are unique (`PRIMARY KEY`), cart keys are unique
(`UNIQUE (user_id, product_id)`), and all existing order / order-item ids
are below the `AUTO_INCREMENT` counter. -/
structure WF (db : DB) : Prop where
  productIdsNodup : (db.products.map Product.id).Nodup
  cartKeysNodup : (db.cart.map (fun l => (l.user_id, l.product_id))).Nodup
  ordersFresh : ∀ o ∈ db.orders, o.id < db.nextOrderId
  itemsFresh : ∀ it ∈ db.orderItems, it.order_id < db.nextOrderId

/-- The spec's inventory invariant: no product's stock is negative. -/
def stocksNonneg (db : DB) : Prop := ∀ p ∈ db.products, 0 ≤ p.stock

instance (db : DB) : Decidable (stocksNonneg db) :=
  inferInstanceAs (Decidable (∀ p ∈ db.products, 0 ≤ p.stock))

/-! ## Document renderer (`createSimplePdf`, `buildInvoicePdf`)

The JS builds the whole PDF as a string and converts it to bytes with
`Buffer.from(pdf, "utf8")`; the model keeps it as a `String` (its UTF-8
encoding is the byte sequence), with `Buffer.byteLength(s, "utf8")`
modelled by `String.utf8ByteSize`. -/

/-- The `escaped` helper of `createSimplePdf`: double every backslash, then
escape parentheses (equivalently, a character-wise replacement). -/
def pdfEscape (s : String) : String :=
  String.join (s.toList.map fun c =>
    if c = '\\' then "\\\\"
    else if c = '(' then "\\("
    else if c = ')' then "\\)"
    else String.singleton c)

/-- `Buffer.byteLength(s, "utf8")`. -/
def byteLen (s : String) : Nat := s.utf8ByteSize

/-- The `lines.forEach` body of `createSimplePdf`: one positioned text
operation per line, `currentY` starting at 775 and decreasing by 16. -/
def contentBody : List String → Int → String
  | [], _ => ""
  | l :: ls, y =>
      "1 0 0 1 50 " ++ toString y ++ " Tm\n/F1 11 Tf\n(" ++ pdfEscape l
        ++ ") Tj\n" ++ contentBody ls (y - 16)

/-- The content stream of `createSimplePdf`: title at the top, then the
lines. -/
def pdfContent (title : String) (lines : List String) : String :=
  "BT\n/F1 16 Tf\n50 800 Td\n(" ++ pdfEscape title ++ ") Tj\n"
    ++ contentBody lines 775 ++ "ET"

/-- The five PDF objects pushed by `createSimplePdf`. -/
def pdfObjects (stream : String) : List String :=
  [ "1 0 obj\n<< /Type /Catalog /Pages 2 0 R >>\nendobj\n",
    "2 0 obj\n<< /Type /Pages /Kids [3 0 R] /Count 1 >>\nendobj\n",
    "3 0 obj\n<< /Type /Page /Parent 2 0 R /MediaBox [0 0 595 842] /Resources << /Font << /F1 4 0 R >> >> /Contents 5 0 R >>\nendobj\n",
    "4 0 obj\n<< /Type /Font /Subtype /Type1 /BaseFont /Helvetica >>\nendobj\n",
    "5 0 obj\n<< /Length " ++ toString (byteLen stream) ++ " >>\nstream\n"
      ++ stream ++ "\nendstream\nendobj\n" ]

/-- `String(n).padStart(10, "0")`. -/
def padLeft10 (n : Nat) : String :=
  let s := toString n
  String.join (List.replicate (10 - s.length) "0") ++ s

/-- The `objects.forEach` loop of `createSimplePdf`: append each object to
the body, recording the byte offset at which it starts. -/
def appendObjs : List String → String → List Nat → String × List Nat
  | [], pdf, offs => (pdf, offs)
  | o :: os, pdf, offs => appendObjs os (pdf ++ o) (offs ++ [byteLen pdf])

/-- The xref table entries: one `NNNNNNNNNN 00000 n ` line per object. -/
def xrefEntries (offs : List Nat) : String :=
  String.join (offs.map fun off => padLeft10 off ++ " 00000 n \n")

/-- `createSimplePdf(title, lines)`: a minimal one-page PDF 1.4 document
with a Helvetica header and one text line per entry of `lines`. -/
def createSimplePdf (title : String) (lines : List String) : String :=
  let stream := pdfContent title lines
  let objs := pdfObjects stream
  let bo := appendObjs objs "%PDF-1.4\n" []
  let xrefStart := byteLen bo.1
  bo.1 ++ "xref\n0 " ++ toString (objs.length + 1) ++ "\n"
    ++ "0000000000 65535 f \n" ++ xrefEntries bo.2
    ++ "trailer\n<< /Size " ++ toString (objs.length + 1)
    ++ " /Root 1 0 R >>\nstartxref\n" ++ toString xrefStart ++ "\n%%EOF"

/-- `Number.prototype.toFixed(2)` on the exact rational value: round to a
whole number of cents and print with exactly two digits after the point. -/
def toFixed2 (q : ℚ) : String :=
  let c : Int := Int.floor (q * 100 + 1 / 2)
  let mag : Nat := c.natAbs
  (if c < 0 then "-" else "")
    ++ toString (mag / 100) ++ "."
    ++ (if mag % 100 < 10 then "0" else "") ++ toString (mag % 100)

/-- `new Date(ts).toLocaleString()`: under one fixed process locale and
timezone this is a pure function of the stored timestamp; the model keeps
the timestamp opaque and takes the rendering to be the timestamp itself. -/
def jsLocaleDate (ts : String) : String := ts

/-- A row of the invoice item query:
`SELECT order_items.*, products.title FROM order_items JOIN products ON
order_items.product_id = products.id WHERE order_items.order_id = ?` —
the title is live from `products`, the price is the order-time snapshot. -/
structure InvoiceItem where
  title : String
  quantity : Int
  price : ℚ
deriving Repr, DecidableEq

/-- The order row joined with its owner's `users.name`, `users.email`. -/
structure OrderView where
  row : OrderRow
  name : String
  email : String
deriving Repr, DecidableEq

/-- `items.reduce((sum, item) => sum + item.price * item.quantity, 0)`
inside `buildInvoicePdf`. -/
def invoiceSubtotal (items : List InvoiceItem) : ℚ :=
  items.foldl (fun s it => s + it.price * (it.quantity : ℚ)) 0

/-- The `lines` array of `buildInvoicePdf`. -/
def invoiceLines (o : OrderView) (items : List InvoiceItem) : List String :=
  let subtotal := invoiceSubtotal items
  let tax := subtotal * taxRate
  let total := subtotal + tax
  [ "Invoice #" ++ toString o.row.id,
    "Date: " ++ jsLocaleDate o.row.created_at,
    "Customer: " ++ (if o.name = "" then "Customer" else o.name)
      ++ " (" ++ (if o.email = "" then "N/A" else o.email) ++ ")",
    "",
    "Items:" ]
  ++ items.map (fun it =>
       it.title ++ "  x" ++ toString it.quantity ++ "  -  $"
         ++ toFixed2 (it.price * (it.quantity : ℚ)))
  ++ [ "",
       "Subtotal: $" ++ toFixed2 subtotal,
       "Tax (10%): $" ++ toFixed2 tax,
       "Total: $" ++ toFixed2 total ]

/-- `buildInvoicePdf(order, items)`. -/
def buildInvoicePdf (o : OrderView) (items : List InvoiceItem) : String :=
  createSimplePdf "Redstore Invoice" (invoiceLines o items)

/-- The order query of `GET /api/orders/:id/invoice`: the order with this
id owned by this user, inner-joined with its user row. -/
def findOrderFor (oid uid : Nat) (db : DB) : Option OrderView :=
  (db.orders.find? (fun o => o.id == oid && o.user_id == uid)).bind fun o =>
    (db.users.find? (fun u => u.id == o.user_id)).map fun u =>
      { row := o, name := u.name, email := u.email }

/-- The item query of `GET /api/orders/:id/invoice` (see `InvoiceItem`). -/
def orderItemsView (oid : Nat) (db : DB) : List InvoiceItem :=
  (db.orderItems.filter (fun it => it.order_id == oid)).filterMap fun it =>
    (db.products.find? (fun p => p.id == it.product_id)).map fun p =>
      { title := p.title, quantity := it.quantity, price := it.price }

/-- `GET /api/orders/:id/invoice`: 404 when the order does not exist or
belongs to another user, otherwise the rendered PDF bytes.  The handler
only reads, so it returns the database unchanged. -/
def renderInvoice (oid uid : Nat) (db : DB) : Option String × DB :=
  match findOrderFor oid uid db with
  | none => (none, db)
  | some ov => (some (buildInvoicePdf ov (orderItemsView oid db)), db)

/-! ## Restock watcher (`sendBackInStockAlerts`, `PUT /api/products/:id`) -/

/-- One `transporter.sendMail` call (`toAddr` models its `to` field,
which is a reserved token in Lean). -/
structure Mail where
  toAddr : String
  subject : String
  body : String
deriving Repr, DecidableEq

/-- A row of the wishlist query in `sendBackInStockAlerts`:
`SELECT DISTINCT users.email, users.name, products.title FROM wishlist
JOIN users ... JOIN products ... WHERE wishlist.product_id IN (?)`. -/
structure WishJoinRow where
  email : String
  name : String
  title : String
deriving Repr, DecidableEq

/-- The wishlist join before `DISTINCT`. -/
def wishJoinRaw (pids : List Nat) (db : DB) : List WishJoinRow :=
  (db.wishlist.filter (fun w => pids.contains w.product_id)).filterMap fun w =>
    (db.users.find? (fun u => u.id == w.user_id)).bind fun u =>
      (db.products.find? (fun p => p.id == w.product_id)).map fun p =>
        { email := u.email, name := u.name, title := p.title }

/-- The back-in-stock mail for one distinct wishlist row. -/
def restockMail (r : WishJoinRow) : Mail :=
  { toAddr := r.email,
    subject := r.title ++ " is back in stock!",
    body := "Hi " ++ (if r.name = "" then "there" else r.name)
      ++ ", the product \"" ++ r.title
      ++ "\" from your wishlist is now available. Continue shopping on Redstore!" }

/-- The `for (const row of wishlistRows) await transporter.sendMail(...)`
loop.  `fails` says which sends reject.  There is no `try`/`catch`: a
rejected `await` aborts the loop, so the result is the list of mails whose
send was attempted (the failing one included) and whether the loop
finished without an error. -/
def runSendLoop (fails : Mail → Bool) : List Mail → List Mail × Bool
  | [] => ([], true)
  | m :: ms =>
      if fails m then ([m], false)
      else
        let r := runSendLoop fails ms
        (m :: r.1, r.2)

/-- `sendBackInStockAlerts(productIds)`: skip when the id list is empty or
SMTP is not configured; otherwise send one mail per `DISTINCT`
`(email, name, title)` row of the wishlist join. -/
def sendBackInStockAlerts (fails : Mail → Bool) (pids : List Nat) (db : DB) :
    List Mail × Bool :=
  if pids.isEmpty then ([], true)
  else if !db.smtpConfigured then ([], true)
  else runSendLoop fails ((wishJoinRaw pids db).dedup.map restockMail)

/-- The outcome of `PUT /api/products/:id`: 400 on a bad rating, 404 on a
missing product, the `"Updated successfully"` response, or an uncaught
mail error escaping the handler (in which case no success response is
ever sent). -/
inductive UpdateResult where
  | badRating
  | notFound
  | updated
  | mailError
deriving Repr, DecidableEq

/-- The `UPDATE products SET title=?, price=?, description=?, Rating=?,
stock=? WHERE id=?` statement (stock already clamped by the caller). -/
def updateProductRow (pid : Nat) (t d : String) (pr : ℚ) (rat sv : Int)
    (db : DB) : DB :=
  { db with products := db.products.map fun p =>
      if p.id == pid then
        { p with title := t, descr := d, price := pr, rating := rat, stock := sv }
      else p }

/-- `PUT /api/products/:id`: clamp the stock input with
`Math.max(0, parseInt(stock) || 0)`, validate the rating, read the old
stock, update the row, and — when the old stock was ≤ 0 and the new one is
> 0 — `await sendBackInStockAlerts([id])` with no error handling, so a
send failure prevents the success response. -/
def putProduct (fails : Mail → Bool) (pid : Nat) (t d : String) (pr : ℚ)
    (rat sIn : Int) (db : DB) : UpdateResult × DB × List Mail :=
  let stockValue := max 0 sIn
  if rat < 0 ∨ rat > 5 then (UpdateResult.badRating, db, [])
  else
    match db.products.find? (fun p => p.id == pid) with
    | none => (UpdateResult.notFound, db, [])
    | some before =>
      let db1 := updateProductRow pid t d pr rat stockValue db
      if before.stock ≤ 0 ∧ 0 < stockValue then
        let sb := sendBackInStockAlerts fails [pid] db1
        if sb.2 then (UpdateResult.updated, db1, sb.1)
        else (UpdateResult.mailError, db1, sb.1)
      else (UpdateResult.updated, db1, [])

/-! ## Cart insertion (`POST /api/cart`) -/

/-- `Math.max(1, parseInt(quantity) || 1)`: `none` models a missing or
non-numeric quantity (`parseInt` gave `NaN`), `some n` a parsed integer;
`NaN` and `0` are falsy, so `|| 1` turns both into 1, and `Math.max`
clamps negatives up to 1. -/
def parseQty (q : Option Int) : Int :=
  max 1 (match q with
    | none => 1
    | some n => if n = 0 then 1 else n)

/-- The outcome of `POST /api/cart`. -/
inductive CartResult where
  | notFound
  | outOfStock
  | added
deriving Repr, DecidableEq

/-- `POST /api/cart`: 404 when the product does not exist, 400 when its
stock is ≤ 0, otherwise `INSERT ... ON DUPLICATE KEY UPDATE quantity =
quantity + VALUES(quantity)`.  The requested quantity is never compared
against the stock. -/
def addToCart (uid pid : Nat) (q : Option Int) (db : DB) : CartResult × DB :=
  let qty := parseQty q
  match db.products.find? (fun p => p.id == pid) with
  | none => (CartResult.notFound, db)
  | some p =>
      if p.stock ≤ 0 then (CartResult.outOfStock, db)
      else
        let newCart :=
          if db.cart.any (fun l => l.user_id == uid && l.product_id == pid) then
            db.cart.map fun l =>
              if l.user_id == uid && l.product_id == pid then
                { l with quantity := l.quantity + qty }
              else l
          else db.cart ++ [{ user_id := uid, product_id := pid, quantity := qty }]
        (CartResult.added, { db with cart := newCart })

/-! ## Helper lemmas about the checkout engine -/

/-- Total quantity the decrement loop subtracts from product `pid`. -/
def sumQty (items : List CartItem) (pid : Nat) : Int :=
  ((items.filter (fun it => it.product_id == pid)).map CartItem.quantity).sum

theorem foldl_add_eq {α : Type} (f : α → ℚ) (l : List α) (a : ℚ) :
    l.foldl (fun s x => s + f x) a = a + (l.map f).sum := by
  induction l generalizing a with
  | nil => simp
  | cons x xs ih => simp [ih, add_assoc]

theorem subtotalOf_eq (items : List CartItem) :
    subtotalOf items = (items.map (fun it => it.price * (it.quantity : ℚ))).sum := by
  simpa using foldl_add_eq (fun it => it.price * (it.quantity : ℚ)) items 0

theorem sumQty_cons (it : CartItem) (items : List CartItem) (pid : Nat) :
    sumQty (it :: items) pid =
      (if it.product_id = pid then it.quantity else 0) + sumQty items pid := by
  by_cases h : it.product_id = pid <;>
    simp [sumQty, List.filter_cons, h]

theorem sumQty_eq_zero {items : List CartItem} {pid : Nat}
    (h : ∀ it ∈ items, it.product_id ≠ pid) : sumQty items pid = 0 := by
  induction items with
  | nil => simp [sumQty]
  | cons a t ih =>
      rw [sumQty_cons, if_neg (h a (List.mem_cons_self a t)),
        ih (fun it hit => h it (List.mem_cons_of_mem a hit))]
      simp

theorem sumQty_eq_of_mem_nodup {items : List CartItem} {it : CartItem}
    (hnd : (items.map CartItem.product_id).Nodup) (hmem : it ∈ items) :
    sumQty items it.product_id = it.quantity := by
  induction items with
  | nil => cases hmem
  | cons a t ih =>
      rw [List.map_cons, List.nodup_cons] at hnd
      rcases List.mem_cons.mp hmem with h | h
      · subst h
        rw [sumQty_cons, if_pos rfl, sumQty_eq_zero, add_zero]
        intro x hx hEq
        exact hnd.1 (hEq ▸ List.mem_map_of_mem CartItem.product_id hx)
      · have hne : a.product_id ≠ it.product_id := by
          intro hEq
          exact hnd.1 (hEq ▸ List.mem_map_of_mem CartItem.product_id h)
        rw [sumQty_cons, if_neg hne, ih hnd.2 h, zero_add]

theorem decStockOne_eq (pid : Nat) (q : Int) (ps : List Product) :
    decStockOne pid q ps =
      ps.map fun p =>
        { p with stock := p.stock - (if pid = p.id then q else 0) } := by
  unfold decStockOne
  apply List.map_congr_left
  intro p _
  by_cases h : p.id = pid
  · simp [h]
  · rw [if_neg (by simpa using h), if_neg (fun hEq : pid = p.id => h hEq.symm)]
    simp

theorem applyDecrements_eq (items : List CartItem) (ps : List Product) :
    applyDecrements items ps =
      ps.map fun p => { p with stock := p.stock - sumQty items p.id } := by
  induction items generalizing ps with
  | nil =>
      simp [applyDecrements, sumQty]
  | cons it its ih =>
      show applyDecrements its (decStockOne it.product_id it.quantity ps) = _
      rw [ih, decStockOne_eq, List.map_map]
      apply List.map_congr_left
      intro p _
      simp only [Function.comp_apply, sumQty_cons]
      by_cases h : it.product_id = p.id
      · simp [h, sub_sub]
      · simp [h]

theorem find?_eq_self_of_nodup {ps : List Product}
    (h : (ps.map Product.id).Nodup) {p : Product} (hp : p ∈ ps) :
    ps.find? (fun q => q.id == p.id) = some p := by
  induction ps with
  | nil => cases hp
  | cons a t ih =>
      rw [List.map_cons, List.nodup_cons] at h
      rcases List.mem_cons.mp hp with hEq | hmem
      · subst hEq
        simp [List.find?_cons_of_pos]
      · have hne : a.id ≠ p.id := by
          intro hEq
          exact h.1 (hEq ▸ List.mem_map_of_mem Product.id hmem)
        rw [List.find?_cons_of_neg, ih h.2 hmem]
        simpa using hne

theorem mem_cartItemsFor {it : CartItem} {uid : Nat} {db : DB}
    (h : it ∈ cartItemsFor uid db) :
    ∃ l ∈ db.cart, l.user_id = uid ∧
      ∃ p, db.products.find? (fun q => q.id == l.product_id) = some p ∧
        it = { product_id := l.product_id, quantity := l.quantity,
               price := p.price, stock := p.stock, title := p.title } := by
  rcases List.mem_filterMap.mp h with ⟨l, hl, hfl⟩
  rcases List.mem_filter.mp hl with ⟨hlc, hu⟩
  rcases Option.map_eq_some'.mp hfl with ⟨p, hp, hit⟩
  exact ⟨l, hlc, by simpa using hu, p, hp, hit.symm⟩

theorem filterMap_map_pid_sublist (l : List CartLine)
    (f : CartLine → Option CartItem)
    (hf : ∀ a b, f a = some b → b.product_id = a.product_id) :
    List.Sublist ((l.filterMap f).map CartItem.product_id)
      (l.map CartLine.product_id) := by
  induction l with
  | nil => simp
  | cons a t ih =>
      rw [List.filterMap_cons]
      cases hfa : f a with
      | none => exact (List.map_cons _ a t) ▸ ih.cons _
      | some b =>
          rw [List.map_cons, List.map_cons, hf a b hfa]
          exact ih.cons₂ _

theorem filtered_pids_nodup (uid : Nat) (c : List CartLine)
    (h : (c.map fun l => (l.user_id, l.product_id)).Nodup) :
    ((c.filter (fun l => l.user_id == uid)).map CartLine.product_id).Nodup := by
  induction c with
  | nil => simp
  | cons a t ih =>
      rw [List.map_cons, List.nodup_cons] at h
      by_cases ha : a.user_id = uid
      · rw [List.filter_cons_of_pos (by simpa using ha), List.map_cons,
          List.nodup_cons]
        refine ⟨?_, ih h.2⟩
        intro hmem
        rcases List.mem_map.mp hmem with ⟨l, hl, hpid⟩
        rcases List.mem_filter.mp hl with ⟨hlt, hlu⟩
        apply h.1
        have hmem2 : (l.user_id, l.product_id) ∈ t.map fun l => (l.user_id, l.product_id) :=
          List.mem_map_of_mem _ hlt
        have hlu2 : l.user_id = uid := by simpa using hlu
        rwa [hlu2, ← ha, hpid] at hmem2
      · rw [List.filter_cons_of_neg (by simpa using ha)]
        exact ih h.2

theorem cartItemsFor_pids_nodup {db : DB} (uid : Nat) (hwf : WF db) :
    ((cartItemsFor uid db).map CartItem.product_id).Nodup := by
  have hsub := filterMap_map_pid_sublist
    (db.cart.filter (fun l => l.user_id == uid))
    (fun l => (db.products.find? (fun p => p.id == l.product_id)).map fun p =>
      { product_id := l.product_id, quantity := l.quantity,
        price := p.price, stock := p.stock, title := p.title })
    (by
      intro a b hab
      rcases Option.map_eq_some'.mp hab with ⟨p, _, hb⟩
      rw [← hb])
  exact (filtered_pids_nodup uid db.cart hwf.cartKeysNodup).sublist hsub

/-- The order row the success path of `placeOrder` inserts. -/
def successOrder (uid : Nat) (db : DB) : OrderRow :=
  { id := db.nextOrderId, user_id := uid,
    subtotal := subtotalOf (cartItemsFor uid db),
    tax := subtotalOf (cartItemsFor uid db) * taxRate,
    total := subtotalOf (cartItemsFor uid db)
      + subtotalOf (cartItemsFor uid db) * taxRate,
    status := "completed", created_at := db.now }

/-- The post-state of the success path of `placeOrder`. -/
def successDB (uid : Nat) (db : DB) : DB :=
  { db with
    orders := db.orders ++ [successOrder uid db]
    orderItems := db.orderItems ++ mkOrderItems db.nextOrderId (cartItemsFor uid db)
    products := applyDecrements (cartItemsFor uid db) db.products
    cart := db.cart.filter (fun l => l.user_id != uid)
    nextOrderId := db.nextOrderId + 1 }

theorem placeOrder_success_eq (uid : Nat) (db : DB)
    (hne : cartItemsFor uid db ≠ [])
    (hstock : ∀ it ∈ cartItemsFor uid db, it.quantity ≤ it.stock) :
    placeOrder uid db = (Except.ok (successOrder uid db), successDB uid db) := by
  have hempty : (cartItemsFor uid db).isEmpty = false := by
    cases h : cartItemsFor uid db with
    | nil => exact absurd h hne
    | cons a t => rfl
  have hnone : (cartItemsFor uid db).find?
      (fun it => decide (it.stock < it.quantity)) = none := by
    rw [List.find?_eq_none]
    intro it hit
    simpa using Int.not_lt.mpr (hstock it hit)
  simp [placeOrder, hempty, hnone, successOrder, successDB]

theorem placeOrder_snd_cases (uid : Nat) (db : DB) :
    (placeOrder uid db).2 = db ∨
      ((∀ it ∈ cartItemsFor uid db, ¬ it.stock < it.quantity) ∧
        (placeOrder uid db).2 = successDB uid db) := by
  by_cases hemp : (cartItemsFor uid db).isEmpty = true
  · left
    simp [placeOrder, hemp]
  · have hemp2 : (cartItemsFor uid db).isEmpty = false := by
      simpa using hemp
    cases hfind : (cartItemsFor uid db).find?
        (fun it => decide (it.stock < it.quantity)) with
    | some bad =>
        left
        simp [placeOrder, hemp2, hfind]
    | none =>
        right
        constructor
        · intro it hit
          simpa using List.find?_eq_none.mp hfind it hit
        · simp [placeOrder, hemp2, hfind, successDB, successOrder]

theorem successDB_stocksNonneg (uid : Nat) (db : DB) (hwf : WF db)
    (hchk : ∀ it ∈ cartItemsFor uid db, ¬ it.stock < it.quantity)
    (hnn : stocksNonneg db) : stocksNonneg (successDB uid db) := by
  intro p hp
  have hp2 : p ∈ (cartItemsFor uid db).foldl
      (fun acc it => decStockOne it.product_id it.quantity acc) db.products := hp
  rw [show ((cartItemsFor uid db).foldl
        (fun acc it => decStockOne it.product_id it.quantity acc) db.products)
      = applyDecrements (cartItemsFor uid db) db.products from rfl,
    applyDecrements_eq] at hp2
  rcases List.mem_map.mp hp2 with ⟨q, hq, hpq⟩
  subst hpq
  show (0 : Int) ≤ q.stock - sumQty (cartItemsFor uid db) q.id
  by_cases hmem : ∃ it ∈ cartItemsFor uid db, it.product_id = q.id
  · rcases hmem with ⟨it, hit, hpid⟩
    have hnd := cartItemsFor_pids_nodup uid hwf
    have hsq : sumQty (cartItemsFor uid db) q.id = it.quantity := by
      rw [← hpid]
      exact sumQty_eq_of_mem_nodup hnd hit
    rcases mem_cartItemsFor hit with ⟨l, _, _, pr, hfind, hitEq⟩
    have hlq : l.product_id = q.id := by
      rw [hitEq] at hpid
      exact hpid
    have hfq := find?_eq_self_of_nodup hwf.productIdsNodup hq
    rw [hlq] at hfind
    have hprq : pr = q := by
      rw [hfind] at hfq
      exact Option.some.inj hfq
    have hstock_eq : it.stock = q.stock := by
      rw [hitEq, hprq]
    have hle := hchk it hit
    rw [Int.not_lt, hstock_eq] at hle
    rw [hsq]
    omega
  · push_neg at hmem
    rw [sumQty_eq_zero hmem, sub_zero]
    exact hnn q hq

theorem successDB_WF (uid : Nat) (db : DB) (hwf : WF db) :
    WF (successDB uid db) := by
  constructor
  · have hids : (successDB uid db).products.map Product.id
        = db.products.map Product.id := by
      show (applyDecrements (cartItemsFor uid db) db.products).map Product.id = _
      rw [applyDecrements_eq, List.map_map]
      rfl
    rw [hids]
    exact hwf.productIdsNodup
  · exact hwf.cartKeysNodup.sublist ((List.filter_sublist _).map _)
  · intro o ho
    rcases List.mem_append.mp ho with h | h
    · exact Nat.lt_succ_of_lt (hwf.ordersFresh o h)
    · rw [List.mem_singleton.mp h]
      exact Nat.lt_succ_self _
  · intro it hit
    rcases List.mem_append.mp hit with h | h
    · exact Nat.lt_succ_of_lt (hwf.itemsFresh it h)
    · rcases List.mem_map.mp h with ⟨x, _, hx⟩
      rw [← hx]
      exact Nat.lt_succ_self _

theorem placeOrder_preserves (uid : Nat) (db : DB) (hwf : WF db)
    (hnn : stocksNonneg db) :
    WF (placeOrder uid db).2 ∧ stocksNonneg (placeOrder uid db).2 := by
  rcases placeOrder_snd_cases uid db with h | ⟨hchk, h⟩
  · rw [h]
    exact ⟨hwf, hnn⟩
  · rw [h]
    exact ⟨successDB_WF uid db hwf, successDB_stocksNonneg uid db hwf hchk hnn⟩

theorem checkoutSeq_preserves (uids : List Nat) (db : DB) (hwf : WF db)
    (hnn : stocksNonneg db) :
    WF (checkoutSeq uids db) ∧ stocksNonneg (checkoutSeq uids db) := by
  induction uids generalizing db with
  | nil => exact ⟨hwf, hnn⟩
  | cons u us ih =>
      have h := placeOrder_preserves u db hwf hnn
      exact ih (placeOrder u db).2 h.1 h.2

theorem filter_pid_eq_singleton {items : List CartItem} {it : CartItem}
    (hnd : (items.map CartItem.product_id).Nodup) (hmem : it ∈ items) :
    items.filter (fun x => x.product_id == it.product_id) = [it] := by
  induction items with
  | nil => cases hmem
  | cons a t ih =>
      rw [List.map_cons, List.nodup_cons] at hnd
      rcases List.mem_cons.mp hmem with h | h
      · subst h
        rw [List.filter_cons_of_pos (by simp), List.filter_eq_nil_iff.mpr]
        intro x hx
        simp only [beq_iff_eq]
        intro hEq
        exact hnd.1 (hEq ▸ List.mem_map_of_mem CartItem.product_id hx)
      · have hne : a.product_id ≠ it.product_id := by
          intro hEq
          exact hnd.1 (hEq ▸ List.mem_map_of_mem CartItem.product_id h)
        rw [List.filter_cons_of_neg (by simpa using hne), ih hnd.2 h]

/-! ## The claims -/

/-- Concrete database for the C1 witness: one user, two products, a full
cart. -/
def dbC1 : DB :=
  { products := [{ id := 1, title := "A", descr := "", price := 10, rating := 0, stock := 3 },
                 { id := 2, title := "B", descr := "", price := 5, rating := 0, stock := 1 }],
    cart := [{ user_id := 7, product_id := 1, quantity := 2 },
             { user_id := 7, product_id := 2, quantity := 1 }],
    orders := [], orderItems := [], wishlist := [],
    users := [{ id := 7, name := "U", email := "u@x" }],
    nextOrderId := 1, now := "t", smtpConfigured := false }

/-- C1, counterexample.  The claim says the per-product stock decrement of
`PlaceOrder` step 5 is a conditional update that succeeds only if the
resulting stock stays ≥ 0, re-validated at write time.  The decrement the
code issues (`UPDATE products SET stock = stock - ? WHERE id = ?`,
embedded as `decStockOne`) carries no such condition: applied to a product
with stock 0 it succeeds and writes stock -1. -/
theorem C1_counterexample :
    (decStockOne 1 1
        [{ id := 1, title := "A", descr := "", price := 2, rating := 0, stock := 0 }]).map
      Product.stock = [-1] := by decide

/-- C1, amended: the write-time decrement is unconditional (no re-validation
against the resulting stock), but under the sequential execution modelled
here the read-time check of step 2 alone ensures that a well-formed
database with non-negative stocks keeps all stocks non-negative across
every sequence of checkout operations. -/
theorem C1_stock_never_negative_sequential (uids : List Nat) (db : DB)
    (hwf : WF db) (hnn : stocksNonneg db) :
    stocksNonneg (checkoutSeq uids db) :=
  (checkoutSeq_preserves uids db hwf hnn).2

/-- Witness for C1: a concrete database run through three checkout calls. -/
theorem C1_stock_never_negative_sequential_witness :
    stocksNonneg dbC1 ∧ stocksNonneg (checkoutSeq [7, 7, 3] dbC1) :=
  ⟨by decide, C1_stock_never_negative_sequential [7, 7, 3] dbC1
    ⟨by decide, by decide, by decide, by decide⟩ (by decide)⟩

/-- Concrete database for the C2 witness: the spec's concrete scenario
(product A price 10.00 stock 10, product B price 5.00 stock 10, cart
qty 2 and 1). -/
def dbC2 : DB :=
  { products := [{ id := 1, title := "A", descr := "", price := 10, rating := 0, stock := 10 },
                 { id := 2, title := "B", descr := "", price := 5, rating := 0, stock := 10 }],
    cart := [{ user_id := 7, product_id := 1, quantity := 2 },
             { user_id := 7, product_id := 2, quantity := 1 }],
    orders := [], orderItems := [], wishlist := [],
    users := [{ id := 7, name := "U", email := "u@x" }],
    nextOrderId := 1, now := "t", smtpConfigured := false }

/-- C2: for every non-empty joined cart in which each line's quantity is at
most its product's current stock, `placeOrder` succeeds; afterwards
exactly one order row with the new id exists, exactly one order-item row
per distinct cart product exists (carrying the price snapshotted at the
cart read, which is the product's current price), every product's stock is
decremented by exactly the total purchased quantity of that product (the
cart line's quantity, and 0 for products not in the cart), and the user's
cart is empty. -/
theorem C2_placeOrder_success (uid : Nat) (db : DB) (hwf : WF db)
    (hne : cartItemsFor uid db ≠ [])
    (hstock : ∀ it ∈ cartItemsFor uid db, it.quantity ≤ it.stock) :
    (placeOrder uid db).1 = Except.ok (successOrder uid db) ∧
    ((placeOrder uid db).2.orders.filter
      (fun o => o.id == db.nextOrderId)).length = 1 ∧
    (∀ it ∈ cartItemsFor uid db,
      ((placeOrder uid db).2.orderItems.filter
        (fun oi => oi.order_id == db.nextOrderId
          && oi.product_id == it.product_id)).length = 1 ∧
      ({ order_id := db.nextOrderId, product_id := it.product_id,
         quantity := it.quantity, price := it.price } : OrderItem)
        ∈ (placeOrder uid db).2.orderItems ∧
      ∃ p ∈ db.products, p.id = it.product_id ∧ it.price = p.price) ∧
    (placeOrder uid db).2.products
      = (db.products.map fun p =>
          { p with stock := p.stock - sumQty (cartItemsFor uid db) p.id }) ∧
    (∀ it ∈ cartItemsFor uid db,
      sumQty (cartItemsFor uid db) it.product_id = it.quantity) ∧
    (placeOrder uid db).2.cart.filter (fun l => l.user_id == uid) = [] := by
  have heq := placeOrder_success_eq uid db hne hstock
  have hnd := cartItemsFor_pids_nodup uid hwf
  refine ⟨by rw [heq], ?_, ?_, ?_, ?_, ?_⟩
  · rw [heq]
    show ((db.orders ++ [successOrder uid db]).filter _).length = 1
    rw [List.filter_append, List.filter_eq_nil_iff.mpr, List.nil_append]
    · simp [successOrder]
    · intro o ho
      simpa using Nat.ne_of_lt (hwf.ordersFresh o ho)
  · intro it hit
    have hfm : (mkOrderItems db.nextOrderId (cartItemsFor uid db)).filter
        (fun oi => oi.order_id == db.nextOrderId
          && oi.product_id == it.product_id)
        = ((cartItemsFor uid db).filter
            (fun x => x.product_id == it.product_id)).map
          (fun x => { order_id := db.nextOrderId, product_id := x.product_id,
                      quantity := x.quantity, price := x.price }) := by
      unfold mkOrderItems
      rw [List.filter_map]
      congr 1
      apply List.filter_congr
      intro x _
      simp [Function.comp]
    refine ⟨?_, ?_, ?_⟩
    · rw [heq]
      show ((db.orderItems ++ mkOrderItems db.nextOrderId
        (cartItemsFor uid db)).filter _).length = 1
      rw [List.filter_append, List.filter_eq_nil_iff.mpr, List.nil_append,
        hfm, filter_pid_eq_singleton hnd hit]
      · rfl
      · intro oi hoi
        simp only [Bool.and_eq_true, beq_iff_eq]
        intro hEq
        exact absurd hEq.1 (Nat.ne_of_lt (hwf.itemsFresh oi hoi))
    · rw [heq]
      show _ ∈ db.orderItems ++ mkOrderItems db.nextOrderId (cartItemsFor uid db)
      refine List.mem_append_right _ ?_
      exact List.mem_map_of_mem _ hit
    · rcases mem_cartItemsFor hit with ⟨l, _, _, pr, hfind, hitEq⟩
      refine ⟨pr, List.mem_of_find?_eq_some hfind, ?_, ?_⟩
      · have := List.find?_some hfind
        rw [hitEq]
        simpa using this
      · rw [hitEq]
  · rw [heq]
    show applyDecrements (cartItemsFor uid db) db.products = _
    exact applyDecrements_eq _ _
  · intro it hit
    exact sumQty_eq_of_mem_nodup hnd hit
  · rw [heq]
    show ((db.cart.filter fun l => l.user_id != uid).filter
      fun l => l.user_id == uid) = []
    rw [List.filter_filter]
    apply List.filter_eq_nil_iff.mpr
    intro l _
    cases h : l.user_id == uid <;> simp [bne, h]

/-- Witness for C2: the spec's concrete scenario — subtotal 25.00, tax
2.50, total 27.50, stocks 8 and 9 afterwards, cart empty. -/
theorem C2_placeOrder_success_witness :
    (cartItemsFor 7 dbC2 ≠ [] ∧ ∀ it ∈ cartItemsFor 7 dbC2, it.quantity ≤ it.stock) ∧
    (placeOrder 7 dbC2).1 = Except.ok (successOrder 7 dbC2) ∧
    (successOrder 7 dbC2).subtotal = 25 ∧
    (successOrder 7 dbC2).tax = 5 / 2 ∧
    (successOrder 7 dbC2).total = 55 / 2 ∧
    (placeOrder 7 dbC2).2.products.map Product.stock = [8, 9] ∧
    (placeOrder 7 dbC2).2.cart.filter (fun l => l.user_id == 7) = [] := by
  have h := C2_placeOrder_success 7 dbC2
    ⟨by decide, by decide, by decide, by decide⟩ (by decide) (by decide)
  have hc : cartItemsFor 7 dbC2 =
      [{ product_id := 1, quantity := 2, price := 10, stock := 10, title := "A" },
       { product_id := 2, quantity := 1, price := 5, stock := 10, title := "B" }] := by
    decide
  refine ⟨⟨by decide, by decide⟩, h.1, ?_, ?_, ?_, ?_, h.2.2.2.2.2⟩
  · show subtotalOf (cartItemsFor 7 dbC2) = 25
    rw [subtotalOf_eq, hc]
    norm_num
  · show subtotalOf (cartItemsFor 7 dbC2) * taxRate = 5 / 2
    rw [subtotalOf_eq, hc, taxRate]
    norm_num
  · show subtotalOf (cartItemsFor 7 dbC2)
      + subtotalOf (cartItemsFor 7 dbC2) * taxRate = 55 / 2
    rw [subtotalOf_eq, hc, taxRate]
    norm_num
  · rw [h.2.2.2.1]
    decide

/-- Concrete database for the C3 witness: product A has stock 1 but the
cart asks for 2. -/
def dbC3 : DB :=
  { products := [{ id := 1, title := "A", descr := "", price := 10, rating := 0, stock := 1 },
                 { id := 2, title := "B", descr := "", price := 5, rating := 0, stock := 10 }],
    cart := [{ user_id := 7, product_id := 1, quantity := 2 },
             { user_id := 7, product_id := 2, quantity := 1 }],
    orders := [{ id := 1, user_id := 7, subtotal := 1, tax := 1 / 10,
                 total := 11 / 10, status := "completed", created_at := "s" }],
    orderItems := [{ order_id := 1, product_id := 2, quantity := 1, price := 1 }],
    wishlist := [], users := [{ id := 7, name := "U", email := "u@x" }],
    nextOrderId := 2, now := "t", smtpConfigured := false }

/-- C3: whenever some joined cart line has quantity exceeding the current
stock, `placeOrder` fails with the insufficient-stock error naming the
first offending line's product title, and the whole database state —
products (stock), cart, orders and order-items tables — is returned
unchanged. -/
theorem C3_insufficient_stock_aborts (uid : Nat) (db : DB)
    (hbad : ∃ it ∈ cartItemsFor uid db, it.stock < it.quantity) :
    ∃ bad, (cartItemsFor uid db).find?
        (fun it => decide (it.stock < it.quantity)) = some bad ∧
      bad ∈ cartItemsFor uid db ∧ bad.stock < bad.quantity ∧
      (placeOrder uid db).1
        = Except.error (OrderError.insufficientStock bad.title) ∧
      (placeOrder uid db).2 = db := by
  have hne : (cartItemsFor uid db).isEmpty = false := by
    rcases hbad with ⟨it, hit, _⟩
    cases h : cartItemsFor uid db with
    | nil => rw [h] at hit; cases hit
    | cons a t => rfl
  have hsome : ((cartItemsFor uid db).find?
      (fun it => decide (it.stock < it.quantity))).isSome := by
    rw [List.find?_isSome]
    rcases hbad with ⟨it, hit, hlt⟩
    exact ⟨it, hit, by simpa using hlt⟩
  rcases Option.isSome_iff_exists.mp hsome with ⟨bad, hfind⟩
  refine ⟨bad, hfind, List.mem_of_find?_eq_some hfind,
    by simpa using List.find?_some hfind, ?_, ?_⟩
  · simp [placeOrder, hne, hfind]
  · simp [placeOrder, hne, hfind]

/-- Witness for C3: a cart asking for 2 units of a product with stock 1
fails naming product A and leaves the database unchanged. -/
theorem C3_insufficient_stock_aborts_witness :
    ∃ bad, (cartItemsFor 7 dbC3).find?
        (fun it => decide (it.stock < it.quantity)) = some bad ∧
      bad ∈ cartItemsFor 7 dbC3 ∧ bad.stock < bad.quantity ∧
      (placeOrder 7 dbC3).1
        = Except.error (OrderError.insufficientStock bad.title) ∧
      (placeOrder 7 dbC3).2 = dbC3 :=
  C3_insufficient_stock_aborts 7 dbC3 (by decide)

/-- Concrete database for the C5 witness: user 9 has an empty cart while
other tables are non-empty. -/
def dbC5 : DB :=
  { products := [{ id := 1, title := "A", descr := "", price := 10, rating := 0, stock := 4 }],
    cart := [{ user_id := 7, product_id := 1, quantity := 1 }],
    orders := [], orderItems := [], wishlist := [],
    users := [{ id := 9, name := "V", email := "v@x" }],
    nextOrderId := 1, now := "t", smtpConfigured := false }

/-- C5: for every user whose cart has no lines, `placeOrder` fails with the
empty-cart error and returns the database unchanged — no table is
written. -/
theorem C5_empty_cart_no_writes (uid : Nat) (db : DB)
    (h : db.cart.filter (fun l => l.user_id == uid) = []) :
    (placeOrder uid db).1 = Except.error OrderError.emptyCart ∧
    (placeOrder uid db).2 = db := by
  have h2 : cartItemsFor uid db = [] := by
    unfold cartItemsFor
    rw [h]
    rfl
  constructor <;> simp [placeOrder, h2]

/-- Witness for C5: user 9's cart is empty in `dbC5`. -/
theorem C5_empty_cart_no_writes_witness :
    (placeOrder 9 dbC5).1 = Except.error OrderError.emptyCart ∧
    (placeOrder 9 dbC5).2 = dbC5 :=
  C5_empty_cart_no_writes 9 dbC5 (by decide)

/-- C6: the invoice renderer is a deterministic pure function.
`buildInvoicePdf` / `createSimplePdf` are pure string builders (every
input, the timestamp included, is part of `OrderView`/`InvoiceItem`), and
the invoice route only reads the database, so invoking `renderInvoice`
twice in a row — the second call on the state the first one returned —
produces byte-for-byte identical output and leaves the state untouched. -/
theorem C6_render_deterministic (oid uid : Nat) (db : DB) :
    (renderInvoice oid uid db).2 = db ∧
    (renderInvoice oid uid ((renderInvoice oid uid db).2)).1
      = (renderInvoice oid uid db).1 := by
  have h2 : (renderInvoice oid uid db).2 = db := by
    unfold renderInvoice
    cases findOrderFor oid uid db <;> rfl
  exact ⟨h2, by rw [h2]⟩

/-- A catalog price change: every product's price is overwritten (with a
new price chosen per product id); nothing else changes. -/
def setPrices (f : Nat → ℚ) (db : DB) : DB :=
  { db with products := db.products.map fun p => { p with price := f p.id } }

theorem orderItemsView_setPrices (oid : Nat) (f : Nat → ℚ) (db : DB) :
    orderItemsView oid (setPrices f db) = orderItemsView oid db := by
  unfold orderItemsView setPrices
  have hfun : (fun it : OrderItem =>
      ((db.products.map fun p => { p with price := f p.id }).find?
        (fun p => p.id == it.product_id)).map fun p =>
        ({ title := p.title, quantity := it.quantity,
           price := it.price } : InvoiceItem))
      = fun it =>
      ((db.products.find? (fun p => p.id == it.product_id)).map fun p =>
        ({ title := p.title, quantity := it.quantity,
           price := it.price } : InvoiceItem)) := by
    funext it
    rw [List.find?_map, Option.map_map]
    rfl
  rw [hfun]

theorem renderInvoice_setPrices (oid uid : Nat) (f : Nat → ℚ) (db : DB) :
    (renderInvoice oid uid (setPrices f db)).1 = (renderInvoice oid uid db).1 := by
  unfold renderInvoice
  rw [show findOrderFor oid uid (setPrices f db) = findOrderFor oid uid db from rfl,
    orderItemsView_setPrices]
  cases findOrderFor oid uid db <;> rfl

theorem invoiceSubtotal_eq (items : List InvoiceItem) :
    invoiceSubtotal items
      = (items.map (fun it => it.price * (it.quantity : ℚ))).sum := by
  simpa using foldl_add_eq (fun it : InvoiceItem => it.price * (it.quantity : ℚ)) items 0

theorem invoiceSubtotal_filterMap (items : List CartItem)
    (F : CartItem → Option InvoiceItem)
    (h : ∀ it ∈ items, ∃ ii, F it = some ii
      ∧ ii.quantity = it.quantity ∧ ii.price = it.price) :
    invoiceSubtotal (items.filterMap F) = subtotalOf items := by
  rw [invoiceSubtotal_eq, subtotalOf_eq]
  induction items with
  | nil => rfl
  | cons a t ih =>
      rcases h a (List.mem_cons_self a t) with ⟨ii, hF, hq, hp⟩
      rw [List.filterMap_cons, hF]
      simp only [List.map_cons, List.sum_cons, hq, hp]
      rw [ih (fun it hit => h it (List.mem_cons_of_mem a hit))]

theorem orderItems_filter_successDB (uid : Nat) (db : DB) (hwf : WF db) :
    (successDB uid db).orderItems.filter
        (fun it => it.order_id == db.nextOrderId)
      = mkOrderItems db.nextOrderId (cartItemsFor uid db) := by
  show ((db.orderItems ++ mkOrderItems db.nextOrderId (cartItemsFor uid db)).filter _) = _
  rw [List.filter_append, List.filter_eq_nil_iff.mpr, List.nil_append,
    List.filter_eq_self.mpr]
  · intro x hx
    rcases List.mem_map.mp hx with ⟨it, _, hxit⟩
    rw [← hxit]
    simp
  · intro it hit
    simpa using Nat.ne_of_lt (hwf.itemsFresh it hit)

theorem find?_products_successDB (uid : Nat) (db : DB) (pid : Nat) :
    (successDB uid db).products.find? (fun p => p.id == pid)
      = (db.products.find? (fun p => p.id == pid)).map
          (fun p => { p with
            stock := p.stock - sumQty (cartItemsFor uid db) p.id }) := by
  show (applyDecrements (cartItemsFor uid db) db.products).find? _ = _
  rw [applyDecrements_eq, List.find?_map]
  rfl

theorem invoiceSubtotal_successDB (uid : Nat) (db : DB) (hwf : WF db) :
    invoiceSubtotal (orderItemsView db.nextOrderId (successDB uid db))
      = subtotalOf (cartItemsFor uid db) := by
  unfold orderItemsView
  rw [orderItems_filter_successDB uid db hwf]
  unfold mkOrderItems
  rw [List.filterMap_map]
  apply invoiceSubtotal_filterMap
  intro it hit
  rcases mem_cartItemsFor hit with ⟨l, _, _, pr, hfind, hitEq⟩
  have hpid : it.product_id = l.product_id := by rw [hitEq]
  refine ⟨{ title := pr.title, quantity := it.quantity, price := it.price }, ?_, rfl, rfl⟩
  show ((successDB uid db).products.find?
    (fun p => p.id == it.product_id)).map _ = _
  rw [find?_products_successDB, hpid, hfind]
  rfl

theorem findOrderFor_successDB (uid : Nat) (db : DB) (hwf : WF db)
    (u : UserRow) (hu : db.users.find? (fun x => x.id == uid) = some u) :
    findOrderFor db.nextOrderId uid (successDB uid db)
      = some { row := successOrder uid db, name := u.name, email := u.email } := by
  unfold findOrderFor
  show ((db.orders ++ [successOrder uid db]).find?
    (fun o => o.id == db.nextOrderId && o.user_id == uid)).bind _ = _
  rw [List.find?_append, List.find?_eq_none.mpr, Option.none_or]
  · have hpred : ((successOrder uid db).id == db.nextOrderId
        && (successOrder uid db).user_id == uid) = true := by
      simp [successOrder]
    rw [List.find?_singleton, if_pos hpred]
    show ((successDB uid db).users.find?
      (fun x => x.id == (successOrder uid db).user_id)).map _ = _
    rw [show (successDB uid db).users = db.users from rfl,
      show (successOrder uid db).user_id = uid from rfl, hu]
    rfl
  · intro o ho
    simp only [Bool.and_eq_true, beq_iff_eq, not_and]
    intro hEq
    exact absurd hEq (Nat.ne_of_lt (hwf.ordersFresh o ho))

/-- Concrete database for the C7 witness. -/
def dbC7 : DB :=
  { products := [{ id := 1, title := "A", descr := "", price := 10, rating := 0, stock := 10 },
                 { id := 2, title := "B", descr := "", price := 5, rating := 0, stock := 10 }],
    cart := [{ user_id := 7, product_id := 1, quantity := 2 },
             { user_id := 7, product_id := 2, quantity := 1 }],
    orders := [], orderItems := [], wishlist := [],
    users := [{ id := 7, name := "U", email := "u@x" }],
    nextOrderId := 1, now := "t", smtpConfigured := false }

/-- C7: invoices are re-renderable from persisted rows with snapshotted
prices.  (1) For every database, rendering is unaffected by any later
catalog price change (`setPrices`), because each line's price comes from
the `order_items` snapshot.  (2) After a successful checkout, rendering
the new order's invoice yields the PDF whose lines carry the checkout's
original subtotal, tax and total, each formatted by `toFixed2` to exactly
two decimal places.  (3) For an order id that does not exist or belongs to
another user the route yields none (404). -/
theorem C7_invoice_snapshot (uid : Nat) (db : DB) (hwf : WF db)
    (hne : cartItemsFor uid db ≠ [])
    (hstock : ∀ it ∈ cartItemsFor uid db, it.quantity ≤ it.stock)
    (u : UserRow) (hu : db.users.find? (fun x => x.id == uid) = some u) :
    (∀ (f : Nat → ℚ) (oid uid2 : Nat) (d : DB),
      (renderInvoice oid uid2 (setPrices f d)).1
        = (renderInvoice oid uid2 d).1) ∧
    (∃ pdfLines,
      (renderInvoice db.nextOrderId uid (placeOrder uid db).2).1
        = some (createSimplePdf "Redstore Invoice" pdfLines) ∧
      "Subtotal: $" ++ toFixed2 (successOrder uid db).subtotal ∈ pdfLines ∧
      "Tax (10%): $" ++ toFixed2 (successOrder uid db).tax ∈ pdfLines ∧
      "Total: $" ++ toFixed2 (successOrder uid db).total ∈ pdfLines) ∧
    (∀ (d : DB) (oid uid2 : Nat),
      (∀ o ∈ d.orders, ¬(o.id = oid ∧ o.user_id = uid2)) →
      (renderInvoice oid uid2 d).1 = none) := by
  have hpo := placeOrder_success_eq uid db hne hstock
  have hfov := findOrderFor_successDB uid db hwf u hu
  have hs := invoiceSubtotal_successDB uid db hwf
  refine ⟨fun f oid uid2 d => renderInvoice_setPrices oid uid2 f d, ?_, ?_⟩
  · refine ⟨invoiceLines
      { row := successOrder uid db, name := u.name, email := u.email }
      (orderItemsView db.nextOrderId (successDB uid db)), ?_, ?_, ?_, ?_⟩
    · rw [hpo]
      show (renderInvoice db.nextOrderId uid (successDB uid db)).1 = _
      unfold renderInvoice
      rw [hfov]
      rfl
    · simp only [invoiceLines, successOrder, hs]
      simp [List.mem_append]
    · simp only [invoiceLines, successOrder, hs]
      simp [List.mem_append]
    · simp only [invoiceLines, successOrder, hs]
      simp [List.mem_append]
  · intro d oid uid2 hno
    have hnone : findOrderFor oid uid2 d = none := by
      unfold findOrderFor
      rw [List.find?_eq_none.mpr]
      · rfl
      · intro o ho
        simpa using hno o ho
    unfold renderInvoice
    rw [hnone]

/-- Witness for C7: the concrete scenario database, with the theorem's
three conclusions instantiated. -/
theorem C7_invoice_snapshot_witness :
    (∀ (f : Nat → ℚ) (oid uid2 : Nat) (d : DB),
      (renderInvoice oid uid2 (setPrices f d)).1
        = (renderInvoice oid uid2 d).1) ∧
    (∃ pdfLines,
      (renderInvoice dbC7.nextOrderId 7 (placeOrder 7 dbC7).2).1
        = some (createSimplePdf "Redstore Invoice" pdfLines) ∧
      "Subtotal: $" ++ toFixed2 (successOrder 7 dbC7).subtotal ∈ pdfLines ∧
      "Tax (10%): $" ++ toFixed2 (successOrder 7 dbC7).tax ∈ pdfLines ∧
      "Total: $" ++ toFixed2 (successOrder 7 dbC7).total ∈ pdfLines) ∧
    (∀ (d : DB) (oid uid2 : Nat),
      (∀ o ∈ d.orders, ¬(o.id = oid ∧ o.user_id = uid2)) →
      (renderInvoice oid uid2 d).1 = none) :=
  C7_invoice_snapshot 7 dbC7 ⟨by decide, by decide, by decide, by decide⟩
    (by decide) (by decide) { id := 7, name := "U", email := "u@x" } (by decide)

/-! ## Restock lemmas -/

theorem runSendLoop_nofail (ms : List Mail) :
    runSendLoop (fun _ => false) ms = (ms, true) := by
  induction ms with
  | nil => rfl
  | cons m t ih => simp [runSendLoop, ih]

theorem runSendLoop_split (fails : Mail → Bool) (pre : List Mail) (m : Mail)
    (post : List Mail) (hpre : ∀ x ∈ pre, fails x = false)
    (hm : fails m = true) :
    runSendLoop fails (pre ++ m :: post) = (pre ++ [m], false) := by
  induction pre with
  | nil => simp [runSendLoop, hm]
  | cons a t ih =>
      have ha : fails a = false := hpre a (List.mem_cons_self a t)
      have ih2 := ih (fun x hx => hpre x (List.mem_cons_of_mem a hx))
      simp [runSendLoop, ha, ih2]

theorem sendAlerts_eq (fails : Mail → Bool) (pids : List Nat) (db : DB)
    (hp : pids ≠ []) (hs : db.smtpConfigured = true) :
    sendBackInStockAlerts fails pids db
      = runSendLoop fails ((wishJoinRaw pids db).dedup.map restockMail) := by
  have hp2 : pids.isEmpty = false := by
    cases pids with
    | nil => exact absurd rfl hp
    | cons a t => rfl
  simp [sendBackInStockAlerts, hp2, hs]

theorem putProduct_crossing_eq (fails : Mail → Bool) (pid : Nat) (t d : String)
    (pr : ℚ) (rat sIn : Int) (db : DB) (before : Product)
    (hfind : db.products.find? (fun p => p.id == pid) = some before)
    (hrat : ¬(rat < 0 ∨ rat > 5))
    (hcross : before.stock ≤ 0 ∧ 0 < max 0 sIn) :
    putProduct fails pid t d pr rat sIn db =
      (if (sendBackInStockAlerts fails [pid]
            (updateProductRow pid t d pr rat (max 0 sIn) db)).2
        then UpdateResult.updated else UpdateResult.mailError,
       updateProductRow pid t d pr rat (max 0 sIn) db,
       (sendBackInStockAlerts fails [pid]
         (updateProductRow pid t d pr rat (max 0 sIn) db)).1) := by
  simp only [putProduct, hfind, if_neg hrat, if_pos hcross]
  cases hsb : (sendBackInStockAlerts fails [pid]
      (updateProductRow pid t d pr rat (max 0 sIn) db)).2 <;>
    simp [hsb]

theorem putProduct_nocross_eq (fails : Mail → Bool) (pid : Nat) (t d : String)
    (pr : ℚ) (rat sIn : Int) (db : DB) (before : Product)
    (hfind : db.products.find? (fun p => p.id == pid) = some before)
    (hrat : ¬(rat < 0 ∨ rat > 5))
    (hnc : ¬(before.stock ≤ 0 ∧ 0 < max 0 sIn)) :
    putProduct fails pid t d pr rat sIn db =
      (UpdateResult.updated, updateProductRow pid t d pr rat (max 0 sIn) db, []) := by
  simp only [putProduct, hfind, if_neg hrat, if_neg hnc]

theorem wishJoinRaw_email_mem {pids : List Nat} {db : DB} {r : WishJoinRow}
    (hr : r ∈ wishJoinRaw pids db) :
    ∃ w ∈ db.wishlist, w.product_id ∈ pids ∧
      ∃ usr ∈ db.users, usr.id = w.user_id ∧ usr.email = r.email := by
  unfold wishJoinRaw at hr
  rcases List.mem_filterMap.mp hr with ⟨w, hw, hfw⟩
  rcases List.mem_filter.mp hw with ⟨hwl, hwp⟩
  rcases Option.bind_eq_some.mp hfw with ⟨usr, husr, hrest⟩
  rcases Option.map_eq_some'.mp hrest with ⟨prod, _, hreq⟩
  refine ⟨w, hwl, by simpa using hwp, usr, List.mem_of_find?_eq_some husr, ?_, ?_⟩
  · simpa using List.find?_some husr
  · rw [← hreq]

/-- Concrete database for the C8 counterexample: two users share the
address `dup@x` under different display names and both wishlist
product 1. -/
def dbC8x : DB :=
  { products := [{ id := 1, title := "A", descr := "", price := 2, rating := 0, stock := 0 }],
    cart := [], orders := [], orderItems := [],
    wishlist := [{ user_id := 1, product_id := 1 }, { user_id := 2, product_id := 1 }],
    users := [{ id := 1, name := "X", email := "dup@x" },
              { id := 2, name := "Y", email := "dup@x" }],
    nextOrderId := 1, now := "t", smtpConfigured := true }

/-- C8, counterexample.  The claim says a restock issues exactly one
notification per distinct recipient address.  The code's `SELECT DISTINCT
users.email, users.name, products.title` deduplicates whole rows, not
addresses: restocking product 1 (stock 0 → 5) with two wishlisting users
who share the address `dup@x` but differ in name sends two mails to that
address. -/
theorem C8_counterexample :
    ((putProduct (fun _ => false) 1 "A" "" 2 0 5 dbC8x).2.2.filter
      (fun m => m.toAddr == "dup@x")).length = 2 := by decide

/-- Concrete database for the C8 witness: user 1 wishlists product 1,
user 2 only wishlists product 2. -/
def dbC8 : DB :=
  { products := [{ id := 1, title := "A", descr := "", price := 2, rating := 0, stock := 0 },
                 { id := 2, title := "B", descr := "", price := 3, rating := 0, stock := 1 }],
    cart := [], orders := [], orderItems := [],
    wishlist := [{ user_id := 1, product_id := 1 }, { user_id := 2, product_id := 2 }],
    users := [{ id := 1, name := "X", email := "x@x" },
              { id := 2, name := "Y", email := "y@x" }],
    nextOrderId := 1, now := "t", smtpConfigured := true }

/-- C8 (amended): when a product-update crosses the stock ≤ 0 → > 0
boundary (with SMTP configured and all sends succeeding), the update
succeeds and exactly one notification is issued per `DISTINCT`
`(email, name, title)` row of the wishlist join for that product — i.e.
per distinct wishlisting (address, name) pair, not per distinct address —
zero notifications go to any address with no wishlist entry for that
product, and an update that does not cross the boundary issues none. -/
theorem C8_restock_notifications (pid : Nat) (t d : String) (pr : ℚ)
    (rat sIn : Int) (db : DB) (before : Product)
    (hfind : db.products.find? (fun p => p.id == pid) = some before)
    (hrat : ¬(rat < 0 ∨ rat > 5))
    (hsmtp : db.smtpConfigured = true)
    (hcross : before.stock ≤ 0 ∧ 0 < max 0 sIn) :
    (putProduct (fun _ => false) pid t d pr rat sIn db).1
      = UpdateResult.updated ∧
    (putProduct (fun _ => false) pid t d pr rat sIn db).2.2
      = (wishJoinRaw [pid]
          (updateProductRow pid t d pr rat (max 0 sIn) db)).dedup.map restockMail ∧
    ((wishJoinRaw [pid]
      (updateProductRow pid t d pr rat (max 0 sIn) db)).dedup).Nodup ∧
    (∀ addr : String,
      (∀ w ∈ db.wishlist, w.product_id = pid →
        ∀ usr ∈ db.users, usr.id = w.user_id → usr.email ≠ addr) →
      ((putProduct (fun _ => false) pid t d pr rat sIn db).2.2.filter
        (fun m => m.toAddr == addr)) = []) ∧
    (∀ (fails2 : Mail → Bool) (pid2 : Nat) (t2 d2 : String) (pr2 : ℚ)
        (rat2 sIn2 : Int) (db2 : DB) (before2 : Product),
      db2.products.find? (fun p => p.id == pid2) = some before2 →
      ¬(rat2 < 0 ∨ rat2 > 5) →
      ¬(before2.stock ≤ 0 ∧ 0 < max 0 sIn2) →
      (putProduct fails2 pid2 t2 d2 pr2 rat2 sIn2 db2).2.2 = []) := by
  have hput := putProduct_crossing_eq (fun _ => false) pid t d pr rat sIn db
    before hfind hrat hcross
  have halert := sendAlerts_eq (fun _ => false) [pid]
    (updateProductRow pid t d pr rat (max 0 sIn) db) (by simp)
    (by exact hsmtp)
  rw [runSendLoop_nofail] at halert
  have hmails : (putProduct (fun _ => false) pid t d pr rat sIn db).2.2
      = (wishJoinRaw [pid]
          (updateProductRow pid t d pr rat (max 0 sIn) db)).dedup.map restockMail := by
    rw [hput, halert]
  refine ⟨by rw [hput, halert]; rfl, hmails, List.nodup_dedup _, ?_, ?_⟩
  · intro addr haddr
    rw [hmails]
    apply List.filter_eq_nil_iff.mpr
    intro m hm
    rcases List.mem_map.mp hm with ⟨r, hr, hmr⟩
    have hr2 : r ∈ wishJoinRaw [pid] (updateProductRow pid t d pr rat (max 0 sIn) db) :=
      List.mem_dedup.mp hr
    rcases wishJoinRaw_email_mem hr2 with ⟨w, hw, hwp, usr, husr, hid, hemail⟩
    have hwpid : w.product_id = pid := by simpa using hwp
    have hne : usr.email ≠ addr := haddr w hw hwpid usr husr hid
    rw [← hmr]
    simpa [restockMail] using fun hEq => hne (hemail.symm ▸ hEq)
  · intro fails2 pid2 t2 d2 pr2 rat2 sIn2 db2 before2 hfind2 hrat2 hnc2
    rw [putProduct_nocross_eq fails2 pid2 t2 d2 pr2 rat2 sIn2 db2 before2
      hfind2 hrat2 hnc2]

/-- Witness for C8: restocking product 1 in `dbC8` notifies `x@x` once and
`y@x` (who wishlisted only product 2) not at all. -/
theorem C8_restock_notifications_witness :
    (putProduct (fun _ => false) 1 "A" "" 2 0 5 dbC8).1
      = UpdateResult.updated ∧
    (putProduct (fun _ => false) 1 "A" "" 2 0 5 dbC8).2.2
      = (wishJoinRaw [1] (updateProductRow 1 "A" "" 2 0 5 dbC8)).dedup.map restockMail ∧
    ((wishJoinRaw [1] (updateProductRow 1 "A" "" 2 0 5 dbC8)).dedup).Nodup ∧
    (∀ addr : String,
      (∀ w ∈ dbC8.wishlist, w.product_id = 1 →
        ∀ usr ∈ dbC8.users, usr.id = w.user_id → usr.email ≠ addr) →
      ((putProduct (fun _ => false) 1 "A" "" 2 0 5 dbC8).2.2.filter
        (fun m => m.toAddr == addr)) = []) ∧
    (∀ (fails2 : Mail → Bool) (pid2 : Nat) (t2 d2 : String) (pr2 : ℚ)
        (rat2 sIn2 : Int) (db2 : DB) (before2 : Product),
      db2.products.find? (fun p => p.id == pid2) = some before2 →
      ¬(rat2 < 0 ∨ rat2 > 5) →
      ¬(before2.stock ≤ 0 ∧ 0 < max 0 sIn2) →
      (putProduct fails2 pid2 t2 d2 pr2 rat2 sIn2 db2).2.2 = []) :=
  C8_restock_notifications 1 "A" "" 2 0 5 dbC8
    { id := 1, title := "A", descr := "", price := 2, rating := 0, stock := 0 }
    (by decide) (by decide) (by decide) (by decide)

/-- Concrete database for C9: two users with distinct addresses wishlist
product 1, which is out of stock. -/
def dbC9 : DB :=
  { products := [{ id := 1, title := "A", descr := "", price := 2, rating := 0, stock := 0 }],
    cart := [], orders := [], orderItems := [],
    wishlist := [{ user_id := 1, product_id := 1 }, { user_id := 2, product_id := 1 }],
    users := [{ id := 1, name := "X", email := "a@x" },
              { id := 2, name := "Y", email := "b@x" }],
    nextOrderId := 1, now := "t", smtpConfigured := true }

/-- The failure pattern for C9: the send to `a@x` rejects. -/
def failsC9 : Mail → Bool := fun m => m.toAddr == "a@x"

/-- C9, counterexample.  The claim says each recipient's notification is
independent: one failed send neither prevents the remaining sends nor
blocks the update's success response.  The send loop has no `try`/`catch`
and the route `await`s it unguarded: when the send to `a@x` rejects while
restocking product 1, the send to `b@x` — a wishlister of that very
product — is never attempted, and the handler errors instead of
responding with success (the stock write itself persists). -/
theorem C9_counterexample :
    (putProduct failsC9 1 "A" "" 2 0 5 dbC9).1 = UpdateResult.mailError ∧
    ((putProduct failsC9 1 "A" "" 2 0 5 dbC9).2.2.filter
      (fun m => m.toAddr == "b@x")) = [] ∧
    ({ user_id := 2, product_id := 1 } : WishRow) ∈ dbC9.wishlist ∧
    ({ id := 2, name := "Y", email := "b@x" } : UserRow) ∈ dbC9.users ∧
    (putProduct failsC9 1 "A" "" 2 0 5 dbC9).2.1.products.map Product.stock
      = [5] := by decide

/-- C9 (amended): the sends are sequential and unguarded — if every send
before some mail `m` succeeds and the send of `m` fails, then exactly the
mails up to and including `m` are attempted, every later recipient is
skipped, the route handler surfaces the error instead of its success
response, and the already-committed product update nevertheless
persists. -/
theorem C9_send_failure_aborts (fails : Mail → Bool) (pid : Nat)
    (t d : String) (pr : ℚ) (rat sIn : Int) (db : DB) (before : Product)
    (pre post : List Mail) (m : Mail)
    (hfind : db.products.find? (fun p => p.id == pid) = some before)
    (hrat : ¬(rat < 0 ∨ rat > 5))
    (hsmtp : db.smtpConfigured = true)
    (hcross : before.stock ≤ 0 ∧ 0 < max 0 sIn)
    (hsplit : (wishJoinRaw [pid]
        (updateProductRow pid t d pr rat (max 0 sIn) db)).dedup.map restockMail
      = pre ++ m :: post)
    (hpre : ∀ x ∈ pre, fails x = false) (hm : fails m = true) :
    (putProduct fails pid t d pr rat sIn db).1 = UpdateResult.mailError ∧
    (putProduct fails pid t d pr rat sIn db).2.2 = pre ++ [m] ∧
    (putProduct fails pid t d pr rat sIn db).2.1
      = updateProductRow pid t d pr rat (max 0 sIn) db := by
  have hput := putProduct_crossing_eq fails pid t d pr rat sIn db
    before hfind hrat hcross
  have halert := sendAlerts_eq fails [pid]
    (updateProductRow pid t d pr rat (max 0 sIn) db) (by simp) hsmtp
  rw [hsplit, runSendLoop_split fails pre m post hpre hm] at halert
  rw [hput, halert]
  exact ⟨rfl, rfl, rfl⟩

/-- Witness for C9: in `dbC9` the first distinct recipient is `a@x` (whose
send fails) and the second is `b@x` (never attempted). -/
theorem C9_send_failure_aborts_witness :
    (putProduct failsC9 1 "A" "" 2 0 5 dbC9).1 = UpdateResult.mailError ∧
    (putProduct failsC9 1 "A" "" 2 0 5 dbC9).2.2
      = [] ++ [restockMail { email := "a@x", name := "X", title := "A" }] ∧
    (putProduct failsC9 1 "A" "" 2 0 5 dbC9).2.1
      = updateProductRow 1 "A" "" 2 0 5 dbC9 :=
  C9_send_failure_aborts failsC9 1 "A" "" 2 0 5 dbC9
    { id := 1, title := "A", descr := "", price := 2, rating := 0, stock := 0 }
    [] [restockMail { email := "b@x", name := "Y", title := "A" }]
    (restockMail { email := "a@x", name := "X", title := "A" })
    (by decide) (by decide) (by decide) (by decide) (by decide)
    (by intro x hx; cases hx) (by decide)

/-- Concrete database for the C10 witness: product 1 exists with stock 1. -/
def dbC10 : DB :=
  { products := [{ id := 1, title := "A", descr := "", price := 2, rating := 0, stock := 1 }],
    cart := [{ user_id := 7, product_id := 1, quantity := 3 }],
    orders := [], orderItems := [], wishlist := [],
    users := [{ id := 7, name := "U", email := "u@x" }],
    nextOrderId := 1, now := "t", smtpConfigured := false }

/-- C10: `POST /api/cart` succeeds whenever the product exists with
stock > 0 — the requested quantity is never compared against the stock
(the hypothesis places no bound on `q`, so the conclusion holds even when
it exceeds the stock); the delta stored is `max 1 (parseInt(qty) || 1)`,
so a missing/non-numeric (`none`), zero or negative quantity coerces to 1,
the delta is always ≥ 1, and the operation preserves the invariant that
every cart line's quantity is ≥ 1. -/
theorem C10_addToCart_coercion (uid pid : Nat) (q : Option Int) (db : DB)
    (p : Product) (hp : db.products.find? (fun x => x.id == pid) = some p)
    (hstock : 0 < p.stock) :
    (addToCart uid pid q db).1 = CartResult.added ∧
    1 ≤ parseQty q ∧
    ((q = none ∨ q = some 0 ∨ ∃ n < 0, q = some n) → parseQty q = 1) ∧
    ((∀ l ∈ db.cart, 1 ≤ l.quantity) →
      ∀ l ∈ (addToCart uid pid q db).2.cart, 1 ≤ l.quantity) := by
  have hns : ¬ p.stock ≤ 0 := not_le.mpr hstock
  have hq1 : 1 ≤ parseQty q := le_max_left 1 _
  refine ⟨by simp [addToCart, hp, hns], hq1, ?_, ?_⟩
  · rintro (rfl | rfl | ⟨n, hn, rfl⟩)
    · rfl
    · rfl
    · show max 1 (if n = 0 then 1 else n) = 1
      rw [if_neg (by omega)]
      omega
  · intro hall l hl
    have hcart : (addToCart uid pid q db).2.cart
        = if db.cart.any (fun x => x.user_id == uid && x.product_id == pid) then
            db.cart.map fun x =>
              if x.user_id == uid && x.product_id == pid then
                { x with quantity := x.quantity + parseQty q }
              else x
          else db.cart ++ [{ user_id := uid, product_id := pid,
                             quantity := parseQty q }] := by
      simp [addToCart, hp, hns]
    rw [hcart] at hl
    by_cases hany : db.cart.any (fun x => x.user_id == uid && x.product_id == pid)
    · rw [if_pos hany] at hl
      rcases List.mem_map.mp hl with ⟨x, hx, hxl⟩
      by_cases hmatch : (x.user_id == uid && x.product_id == pid) = true
      · rw [if_pos hmatch] at hxl
        rw [← hxl]
        show 1 ≤ x.quantity + parseQty q
        have := hall x hx
        omega
      · rw [if_neg hmatch] at hxl
        rw [← hxl]
        exact hall x hx
    · rw [if_neg hany] at hl
      rcases List.mem_append.mp hl with h | h
      · exact hall l h
      · rw [List.mem_singleton.mp h]
        exact hq1

/-- Witness for C10: adding 5 units of a product with stock 1 succeeds
(the check is deferred to checkout), and a negative input coerces to 1. -/
theorem C10_addToCart_coercion_witness :
    (addToCart 7 1 (some (5 : Int)) dbC10).1 = CartResult.added ∧
    1 ≤ parseQty (some (5 : Int)) ∧
    ((some (5 : Int) = none ∨ some (5 : Int) = some 0
        ∨ ∃ n < 0, some (5 : Int) = some n)
      → parseQty (some (5 : Int)) = 1) ∧
    ((∀ l ∈ dbC10.cart, 1 ≤ l.quantity) →
      ∀ l ∈ (addToCart 7 1 (some (5 : Int)) dbC10).2.cart, 1 ≤ l.quantity) :=
  C10_addToCart_coercion 7 1 (some (5 : Int)) dbC10
    { id := 1, title := "A", descr := "", price := 2, rating := 0, stock := 1 }
    (by decide) (by decide)

end Ecom
